import Mathlib

/-!
Verification development for the instrumented Flask service in `src/app.py`.

The shallow embedding models the single request handler `hello` (route `/`),
the `/metrics` route, and the process-wide instrumentation state it mutates:
the Prometheus metric series (counter `http_requests_total`, histogram
`http_request_duration_seconds`, gauge `http_requests_in_progress`, all
labelled by `(method, endpoint)`), the structured log sink, and the queue of
finished trace spans.

Machine-level conventions of the embedding:
- Wall-clock readings (`time.time()`) are passed in as rationals `t0` (taken
  at handler entry, line 65) and `t1` (taken inside the `finally`, line 99).
- A possible failure of the wrapped unit of work (the spot of the simulated
  work at line 93, inside the `with` span block, after the log emission) is
  injected as an `Option String`; `some e` means that point raised `e`.
  Python's `try/finally` and `with` unwinding are made explicit.
- The Metrics Registry, the span context manager, the exposition encoder and
  the JSON log serialization live in libraries outside `src/`; those pieces
  are modelled from the spec, each marked `Modelled from the spec:` below.
-/

/-- A metric label set as used in `src/app.py`: every metric is declared with
label names `['method', 'endpoint']`. -/
structure Labels where
  method : String
  endpoint : String
deriving DecidableEq, Repr

/-- Look a key up in an association list of metric series, returning a default
when the series has not been created yet (series are created lazily on first
use, as `Metric.labels(...)` does). -/
def lookupAssoc {α : Type} (l : List (Labels × α)) (k : Labels) (d : α) : α :=
  match l with
  | [] => d
  | (k', v) :: rest => if k' = k then v else lookupAssoc rest k d

/-- Update the series for key `k` with `f`, creating it from default `d` on
first use (the lazy child creation performed by `Metric.labels(...)`). -/
def updateAssoc {α : Type} (l : List (Labels × α)) (k : Labels) (d : α) (f : α → α) :
    List (Labels × α) :=
  match l with
  | [] => [(k, f d)]
  | (k', v) :: rest =>
    if k' = k then (k', f v) :: rest else (k', v) :: updateAssoc rest k d f

/-- Modelled from the spec: error taxonomy of the Metrics Registry (§4.1,
§7); the registry implementation (`prometheus_client`) is not under `src/`. -/
inductive MetricsError where
  | invalidLabelError
  | invalidObservationError
deriving DecidableEq, Repr

/-- Modelled from the spec: `histogram(name, labelset).observe(value)` of the
Metrics Registry (§4.1), whose implementation (`prometheus_client.Histogram`)
is not under `src/`: records an observation; value must be a non-negative
duration in seconds; out-of-range negative values fail with
`InvalidObservationError`. A histogram series is carried as the list of its
recorded observations (bucket counts, sum and count are derived views). -/
def observe (obs : List ℚ) (v : ℚ) : Except MetricsError (List ℚ) :=
  if v < 0 then .error .invalidObservationError else .ok (obs ++ [v])

/-- A trace span as built by `hello`: name plus key/value attributes, in the
order `set_attribute` attached them. -/
structure Span where
  name : String
  attrs : List (String × String)
deriving DecidableEq, Repr

/-- The structured log record built at lines 82-89 of `src/app.py`; it has
exactly the six fields of the dict literal there. -/
structure LogEvent where
  severity : String
  message : String
  service_name : String
  http_method : String
  http_path : String
  request_id : String
deriving DecidableEq, Repr

/-- An inbound HTTP request as far as `hello` reads it: `request.method` and
the optional `X-Request-ID` header. -/
structure Request where
  method : String
  xRequestId : Option String
deriving DecidableEq, Repr

/-- The process-wide state the handler mutates. The three metric families are
per-series association lists; `gaugeEvents` is the trace of every single
increment (+1) / decrement (-1) the code performs on the in-flight gauge, in
program order; `logLines` is the stdout log sink (one emitted line per entry);
`logEvents` the corresponding records before serialization; `finishedSpans`
the spans closed and queued for export. -/
structure AppState where
  requestCount : List (Labels × Nat)
  latencyObs : List (Labels × List ℚ)
  inProgress : List (Labels × Int)
  gaugeEvents : List (Labels × Int)
  logLines : List String
  logEvents : List LogEvent
  finishedSpans : List Span
deriving Repr

/-- The state at process start: no series created, nothing logged, no spans. -/
def initState : AppState :=
  { requestCount := [], latencyObs := [], inProgress := [], gaugeEvents := [],
    logLines := [], logEvents := [], finishedSpans := [] }

/-- `IN_PROGRESS_REQUESTS.labels(method, endpoint).inc()` (line 69). -/
def gaugeInc (st : AppState) (k : Labels) : AppState :=
  { st with inProgress := updateAssoc st.inProgress k 0 (· + 1),
            gaugeEvents := st.gaugeEvents ++ [(k, 1)] }

/-- `IN_PROGRESS_REQUESTS.labels(method, endpoint).dec()` (line 97). -/
def gaugeDec (st : AppState) (k : Labels) : AppState :=
  { st with inProgress := updateAssoc st.inProgress k 0 (· - 1),
            gaugeEvents := st.gaugeEvents ++ [(k, -1)] }

/-- Lower-case hexadecimal digit, as `json.dumps` emits in escapes. -/
def hexDigit (n : Nat) : Char :=
  if n < 10 then Char.ofNat (48 + n) else Char.ofNat (87 + n)

/-- Four lower-case hex digits of `v % 65536`. -/
def hex4 (v : Nat) : String :=
  String.mk [hexDigit (v / 4096 % 16), hexDigit (v / 256 % 16),
             hexDigit (v / 16 % 16), hexDigit (v % 16)]

/-- Modelled from the spec: per-character escaping of the Structured Logger
serialization (§4.3); the serializer (`json.dumps`, default options with
`ensure_ascii`) is not under `src/`. Control characters, quotes, backslashes
and non-ASCII characters are escaped, so every record is one self-contained
line. -/
def jsonEscapeChar (c : Char) : String :=
  if c = '"' then "\\\""
  else if c = '\\' then "\\\\"
  else if c = '\n' then "\\n"
  else if c = '\r' then "\\r"
  else if c = '\t' then "\\t"
  else if c = Char.ofNat 8 then "\\b"
  else if c = Char.ofNat 12 then "\\f"
  else if c.toNat < 32 then "\\u" ++ hex4 c.toNat
  else if c.toNat < 127 then String.mk [c]
  else if c.toNat < 65536 then "\\u" ++ hex4 c.toNat
  else "\\u" ++ hex4 (55296 + (c.toNat - 65536) / 1024) ++
       "\\u" ++ hex4 (56320 + (c.toNat - 65536) % 1024)

/-- Escape a whole string for a JSON string literal. -/
def jsonEscape (s : String) : String :=
  s.data.foldr (fun c acc => jsonEscapeChar c ++ acc) ""

/-- A JSON string literal. -/
def jsonStr (s : String) : String :=
  "\"" ++ jsonEscape s ++ "\""

/-- Modelled from the spec: the Structured Logger serialization (§4.3) of the
six-field log record, i.e. `json.dumps(log_entry)` (line 90) for the dict
literal of lines 82-89, keys in insertion order, default separators. -/
def dumpsLogEntry (e : LogEvent) : String :=
  "\x7b\"severity\": " ++ jsonStr e.severity ++
  ", \"message\": " ++ jsonStr e.message ++
  ", \"service_name\": " ++ jsonStr e.service_name ++
  ", \"http_method\": " ++ jsonStr e.http_method ++
  ", \"http_path\": " ++ jsonStr e.http_path ++
  ", \"request_id\": " ++ jsonStr e.request_id ++ "\x7d"

/-- The greeting string returned by the handler (line 79). -/
def greeting : String := "Hello from Flask on GKE! (Version 1.1 with Tracing)"

/-- The `log_entry` dict built at lines 82-89:
`request.headers.get('X-Request-ID', 'N/A')` supplies the request id. -/
def helloLogEvent (req : Request) : LogEvent :=
  { severity := "INFO", message := greeting, service_name := "my-flask-app",
    http_method := req.method, http_path := "/",
    request_id := req.xRequestId.getD "N/A" }

/-- Result taxonomy of one `hello` invocation: the greeting on success, a
propagated failure of the wrapped unit of work, or a metrics-usage error
raised inside the `finally` block. -/
inductive HandlerError where
  | bodyFailure (msg : String)
  | metrics (e : MetricsError)
deriving DecidableEq, Repr

/-- The `hello` handler (lines 63-99 of `src/app.py`), with Python control
flow made explicit:
- `t0` is `start_time = time.time()` (line 65), `t1` the `time.time()` read
  inside the `finally` (line 99), `bodyFail` an injected failure of the
  wrapped unit of work at the simulated-work point (line 93).
- The gauge is incremented at entry (line 69); the `with` block opens the
  span, sets its two attributes (lines 76-77), emits exactly one structured
  log line (line 90), then runs the wrapped work; leaving the `with` block —
  normally or by unwinding — closes the span and queues it for export
  (modelled from the spec §4.2: the span processor is not under `src/`).
- The `finally` (lines 96-99) then decrements the gauge, increments the
  request counter and observes the elapsed duration, in that order; an
  exception raised by `observe` inside the `finally` replaces the in-flight
  outcome, after the gauge and counter updates already took effect. -/
def hello (req : Request) (t0 t1 : ℚ) (bodyFail : Option String) (st : AppState) :
    Except HandlerError String × AppState :=
  let k : Labels := { method := req.method, endpoint := "/" }
  let st1 := gaugeInc st k
  let span : Span := { name := "hello-endpoint-processing",
                       attrs := [("http.method", req.method), ("http.path", "/")] }
  let ev := helloLogEvent req
  let st2 := { st1 with logLines := st1.logLines ++ [dumpsLogEntry ev],
                        logEvents := st1.logEvents ++ [ev] }
  let bodyResult : Except HandlerError String :=
    match bodyFail with
    | some e => .error (.bodyFailure e)
    | none => .ok greeting
  let st3 := { st2 with finishedSpans := st2.finishedSpans ++ [span] }
  let st4 := gaugeDec st3 k
  let st5 := { st4 with requestCount := updateAssoc st4.requestCount k 0 (· + 1) }
  match observe (lookupAssoc st5.latencyObs k []) (t1 - t0) with
  | .error e => (.error (.metrics e), st5)
  | .ok obs => (bodyResult, { st5 with latencyObs := updateAssoc st5.latencyObs k [] (fun _ => obs) })

/-- One inbound request to `/` together with its clock readings and the
injected outcome of the wrapped unit of work. -/
structure Invocation where
  req : Request
  t0 : ℚ
  t1 : ℚ
  bodyFail : Option String

/-- Run a sequence of `hello` invocations, threading the process state. -/
def runHello (invs : List Invocation) (st : AppState) : AppState :=
  match invs with
  | [] => st
  | i :: rest => runHello rest (hello i.req i.t0 i.t1 i.bodyFail st).2

/-- An HTTP response as far as the spec constrains it. -/
structure HttpResponse where
  status : Nat
  body : String
  mimetype : String
deriving DecidableEq, Repr

/-- Render one `(method, endpoint)` label set in exposition format. -/
def renderLabels (k : Labels) : String :=
  "\x7bmethod=\"" ++ k.method ++ "\",endpoint=\"" ++ k.endpoint ++ "\"\x7d"

/-- Modelled from the spec: the snapshot encoding `generate_latest()` of the
Metrics Registry (§4.1, §6) — the encoder (`prometheus_client`) is not under
`src/`. Per metric: a `# HELP` line, a `# TYPE` line, then one line per
series as `name{label="value",...} numeric`; histograms additionally emit
`_bucket{le="boundary"}`, `_sum` and `_count` lines (the spec fixes no bucket
boundaries, so only the catch-all `+Inf` bucket is rendered). The body is
this list of lines joined with newlines. -/
def generate_latest (st : AppState) : List String :=
  ["# HELP http_requests_total Total HTTP Requests",
   "# TYPE http_requests_total counter"] ++
  st.requestCount.map (fun p => "http_requests_total" ++ renderLabels p.1 ++ " " ++ toString p.2) ++
  ["# HELP http_request_duration_seconds HTTP Request Latency",
   "# TYPE http_request_duration_seconds histogram"] ++
  (st.latencyObs.map (fun p =>
    ["http_request_duration_seconds_bucket\x7bmethod=\"" ++ p.1.method ++
       "\",endpoint=\"" ++ p.1.endpoint ++ "\",le=\"+Inf\"\x7d " ++ toString p.2.length,
     "http_request_duration_seconds_sum" ++ renderLabels p.1 ++ " " ++ toString p.2.sum,
     "http_request_duration_seconds_count" ++ renderLabels p.1 ++ " " ++ toString p.2.length])).flatten ++
  ["# HELP http_requests_in_progress Number of in-progress HTTP requests",
   "# TYPE http_requests_in_progress gauge"] ++
  st.inProgress.map (fun p => "http_requests_in_progress" ++ renderLabels p.1 ++ " " ++ toString p.2)

/-- The `/metrics` route (lines 102-104):
`Response(generate_latest(), mimetype='text/plain')`; the 200 status is the
`Response` default, per the spec (§6) contract `GET /metrics -> 200`. -/
def metricsRoute (st : AppState) : HttpResponse :=
  { status := 200, body := String.intercalate "\n" (generate_latest st),
    mimetype := "text/plain" }

/-- Modelled from the spec: the HTTP surface's conversion of the handler
outcome into a response is Flask glue, not under `src/`; per §6,
`GET / -> 200, body = a fixed greeting string, content-type text/plain`, and
per §7 a failure of the wrapped unit of work surfaces as whatever
error status the HTTP surface maps it to (here: 500 with empty body). -/
def helloRoute (req : Request) (t0 t1 : ℚ) (bodyFail : Option String) (st : AppState) :
    HttpResponse × AppState :=
  match hello req t0 t1 bodyFail st with
  | (.ok body, st') => ({ status := 200, body := body, mimetype := "text/plain" }, st')
  | (.error _, st') => ({ status := 500, body := "", mimetype := "text/plain" }, st')

/-- The gauge increments and decrements performed on series `k`, in program
order, extracted from the event trace. -/
def deltasFor (k : Labels) (evs : List (Labels × Int)) : List Int :=
  (evs.filter (fun p => decide (p.1 = k))).map Prod.snd

/-- `nonnegRun g ds` holds when, starting from gauge value `g`, every value
reached while applying the deltas `ds` in order stays non-negative. -/
def nonnegRun (g : Int) : List Int → Bool
  | [] => true
  | d :: ds => decide (0 ≤ g + d) && nonnegRun (g + d) ds

/-! ### Association-list registry lemmas -/

theorem lookupAssoc_updateAssoc_self {α : Type} (l : List (Labels × α)) (k : Labels)
    (d : α) (f : α → α) :
    lookupAssoc (updateAssoc l k d f) k d = f (lookupAssoc l k d) := by
  induction l with
  | nil => simp [lookupAssoc, updateAssoc]
  | cons p rest ih =>
    obtain ⟨k', v⟩ := p
    by_cases h : k' = k
    · simp [lookupAssoc, updateAssoc, h]
    · simp [lookupAssoc, updateAssoc, h, ih]

theorem lookupAssoc_updateAssoc_ne {α : Type} (l : List (Labels × α)) (k k' : Labels)
    (d : α) (f : α → α) (h : k' ≠ k) :
    lookupAssoc (updateAssoc l k' d f) k d = lookupAssoc l k d := by
  induction l with
  | nil => simp [lookupAssoc, updateAssoc, h]
  | cons p rest ih =>
    obtain ⟨k₀, v⟩ := p
    by_cases h₀ : k₀ = k'
    · subst h₀
      simp [lookupAssoc, updateAssoc, h]
    · by_cases h₁ : k₀ = k
      · simp [lookupAssoc, updateAssoc, h₀, h₁, Ne.symm h]
      · simp [lookupAssoc, updateAssoc, h₀, h₁, ih]

theorem mem_of_lookupAssoc_ne {α : Type} (l : List (Labels × α)) (k : Labels) (d : α)
    (h : lookupAssoc l k d ≠ d) : (k, lookupAssoc l k d) ∈ l := by
  induction l with
  | nil => simp [lookupAssoc] at h
  | cons p rest ih =>
    obtain ⟨k', v⟩ := p
    by_cases hk : k' = k
    · subst hk
      simp [lookupAssoc]
    · simp only [lookupAssoc, if_neg hk] at h ⊢
      exact List.mem_cons_of_mem _ (ih h)

/-! ### State effect of one `hello` invocation -/

theorem hello_requestCount (req : Request) (t0 t1 : ℚ) (bodyFail : Option String)
    (st : AppState) :
    lookupAssoc (hello req t0 t1 bodyFail st).2.requestCount ⟨req.method, "/"⟩ 0
      = lookupAssoc st.requestCount ⟨req.method, "/"⟩ 0 + 1 := by
  unfold hello
  dsimp only
  split <;> simp [gaugeInc, gaugeDec, lookupAssoc_updateAssoc_self]

theorem hello_requestCount_other (req : Request) (t0 t1 : ℚ) (bodyFail : Option String)
    (st : AppState) (k : Labels) (h : k ≠ ⟨req.method, "/"⟩) :
    lookupAssoc (hello req t0 t1 bodyFail st).2.requestCount k 0
      = lookupAssoc st.requestCount k 0 := by
  unfold hello
  dsimp only
  split <;>
    simp [gaugeInc, gaugeDec, lookupAssoc_updateAssoc_ne _ _ _ _ _ (Ne.symm h)]

theorem hello_inProgress (req : Request) (t0 t1 : ℚ) (bodyFail : Option String)
    (st : AppState) :
    lookupAssoc (hello req t0 t1 bodyFail st).2.inProgress ⟨req.method, "/"⟩ 0
      = lookupAssoc st.inProgress ⟨req.method, "/"⟩ 0 := by
  unfold hello
  dsimp only
  split <;>
    simp [gaugeInc, gaugeDec, lookupAssoc_updateAssoc_self]

theorem hello_gaugeEvents (req : Request) (t0 t1 : ℚ) (bodyFail : Option String)
    (st : AppState) :
    (hello req t0 t1 bodyFail st).2.gaugeEvents
      = st.gaugeEvents ++ [(⟨req.method, "/"⟩, 1), (⟨req.method, "/"⟩, -1)] := by
  unfold hello
  dsimp only
  split <;> simp [gaugeInc, gaugeDec]

theorem hello_finishedSpans (req : Request) (t0 t1 : ℚ) (bodyFail : Option String)
    (st : AppState) :
    (hello req t0 t1 bodyFail st).2.finishedSpans
      = st.finishedSpans ++
          [{ name := "hello-endpoint-processing",
             attrs := [("http.method", req.method), ("http.path", "/")] }] := by
  unfold hello
  dsimp only
  split <;> simp [gaugeInc, gaugeDec]

theorem hello_logLines (req : Request) (t0 t1 : ℚ) (bodyFail : Option String)
    (st : AppState) :
    (hello req t0 t1 bodyFail st).2.logLines
      = st.logLines ++ [dumpsLogEntry (helloLogEvent req)] := by
  unfold hello
  dsimp only
  split <;> simp [gaugeInc, gaugeDec]

theorem hello_logEvents (req : Request) (t0 t1 : ℚ) (bodyFail : Option String)
    (st : AppState) :
    (hello req t0 t1 bodyFail st).2.logEvents
      = st.logEvents ++ [helloLogEvent req] := by
  unfold hello
  dsimp only
  split <;> simp [gaugeInc, gaugeDec]

theorem hello_latencyObs (req : Request) (t0 t1 : ℚ) (bodyFail : Option String)
    (st : AppState) (h : t0 ≤ t1) :
    lookupAssoc (hello req t0 t1 bodyFail st).2.latencyObs ⟨req.method, "/"⟩ []
      = lookupAssoc st.latencyObs ⟨req.method, "/"⟩ [] ++ [t1 - t0] := by
  have hv : ¬ (t1 - t0 < 0) := by
    simp [sub_neg]
    exact h
  unfold hello observe
  dsimp only
  simp [hv, gaugeInc, gaugeDec, lookupAssoc_updateAssoc_self]

theorem hello_result (req : Request) (t0 t1 : ℚ) (bodyFail : Option String)
    (st : AppState) (h : t0 ≤ t1) :
    (hello req t0 t1 bodyFail st).1
      = (match bodyFail with
         | some e => .error (.bodyFailure e)
         | none => .ok greeting) := by
  have hv : ¬ (t1 - t0 < 0) := by
    simp [sub_neg]
    exact h
  unfold hello observe
  dsimp only
  simp [hv]

/-! ### The serialized log record is a single line -/

theorem hexDigit_ne_newline : ∀ n < 16, hexDigit n ≠ '\n' := by decide

theorem newline_not_mem_hex4 (v : Nat) : '\n' ∉ (hex4 v).data := by
  have h4 : ∀ a : Nat, hexDigit (a % 16) ≠ '\n' := fun a =>
    hexDigit_ne_newline _ (Nat.mod_lt _ (by norm_num))
  intro hmem
  simp only [hex4, List.mem_cons, List.not_mem_nil, or_false] at hmem
  rcases hmem with h | h | h | h <;> exact h4 _ h.symm

theorem newline_not_mem_uHex (v : Nat) : '\n' ∉ ("\\u" ++ hex4 v).data := by
  intro hmem
  rw [String.data_append] at hmem
  rcases List.mem_append.mp hmem with h | h
  · revert h
    decide
  · exact newline_not_mem_hex4 _ h

theorem newline_not_mem_jsonEscapeChar (c : Char) : '\n' ∉ (jsonEscapeChar c).data := by
  unfold jsonEscapeChar
  by_cases h1 : c = '"'
  · rw [if_pos h1]
    decide
  rw [if_neg h1]
  by_cases h2 : c = '\\'
  · rw [if_pos h2]
    decide
  rw [if_neg h2]
  by_cases h3 : c = '\n'
  · rw [if_pos h3]
    decide
  rw [if_neg h3]
  by_cases h4 : c = '\r'
  · rw [if_pos h4]
    decide
  rw [if_neg h4]
  by_cases h5 : c = '\t'
  · rw [if_pos h5]
    decide
  rw [if_neg h5]
  by_cases h6 : c = Char.ofNat 8
  · rw [if_pos h6]
    decide
  rw [if_neg h6]
  by_cases h7 : c = Char.ofNat 12
  · rw [if_pos h7]
    decide
  rw [if_neg h7]
  by_cases h8 : c.toNat < 32
  · rw [if_pos h8]
    exact newline_not_mem_uHex _
  rw [if_neg h8]
  by_cases h9 : c.toNat < 127
  · rw [if_pos h9]
    intro hmem
    simp only [String.mk, List.mem_singleton] at hmem
    exact h3 hmem.symm
  rw [if_neg h9]
  by_cases h10 : c.toNat < 65536
  · rw [if_pos h10]
    exact newline_not_mem_uHex _
  rw [if_neg h10]
  intro hmem
  simp only [String.data_append, List.mem_append] at hmem
  rcases hmem with ((h | h) | h) | h
  · revert h
    decide
  · exact newline_not_mem_hex4 _ h
  · revert h
    decide
  · exact newline_not_mem_hex4 _ h

theorem newline_not_mem_jsonEscape (s : String) : '\n' ∉ (jsonEscape s).data := by
  unfold jsonEscape
  induction s.data with
  | nil => decide
  | cons c cs ih =>
    intro hmem
    simp only [List.foldr_cons, String.data_append] at hmem
    rcases List.mem_append.mp hmem with h | h
    · exact newline_not_mem_jsonEscapeChar c h
    · exact ih h

theorem newline_not_mem_jsonStr (s : String) : '\n' ∉ (jsonStr s).data := by
  intro hmem
  rw [jsonStr, String.data_append, String.data_append] at hmem
  rcases List.mem_append.mp hmem with h | h
  · rcases List.mem_append.mp h with h' | h'
    · revert h'
      decide
    · exact newline_not_mem_jsonEscape _ h'
  · revert h
    decide

theorem newline_not_mem_dumpsLogEntry (e : LogEvent) : '\n' ∉ (dumpsLogEntry e).data := by
  intro hmem
  unfold dumpsLogEntry at hmem
  simp only [String.data_append, List.mem_append, newline_not_mem_jsonStr, or_false,
    false_or] at hmem
  revert hmem
  decide

/-! ### Run-level lemmas -/

theorem runHello_requestCount_mono (invs : List Invocation) (st : AppState) (k : Labels) :
    lookupAssoc st.requestCount k 0 ≤ lookupAssoc (runHello invs st).requestCount k 0 := by
  induction invs generalizing st with
  | nil => simp [runHello]
  | cons i rest ih =>
    have step : lookupAssoc st.requestCount k 0
        ≤ lookupAssoc (hello i.req i.t0 i.t1 i.bodyFail st).2.requestCount k 0 := by
      by_cases hk : k = ⟨i.req.method, "/"⟩
      · subst hk
        rw [hello_requestCount]
        omega
      · rw [hello_requestCount_other _ _ _ _ _ _ hk]
    simpa [runHello] using le_trans step (ih _)

theorem runHello_count_pos (invs : List Invocation) (st : AppState)
    (h : ∃ i ∈ invs, i.req.method = "GET") :
    1 ≤ lookupAssoc (runHello invs st).requestCount ⟨"GET", "/"⟩ 0 := by
  induction invs generalizing st with
  | nil => simp at h
  | cons i rest ih =>
    obtain ⟨j, hj, hGET⟩ := h
    rcases List.mem_cons.mp hj with rfl | hjrest
    · have h1 : 1 ≤ lookupAssoc (hello j.req j.t0 j.t1 j.bodyFail st).2.requestCount
          ⟨"GET", "/"⟩ 0 := by
        have hc := hello_requestCount j.req j.t0 j.t1 j.bodyFail st
        rw [hGET] at hc
        omega
      simpa [runHello] using
        le_trans h1 (runHello_requestCount_mono rest (hello j.req j.t0 j.t1 j.bodyFail st).2 _)
    · simpa [runHello] using ih _ ⟨j, hjrest, hGET⟩

/-! ### Gauge event-trace lemmas -/

theorem deltasFor_append (k : Labels) (a b : List (Labels × Int)) :
    deltasFor k (a ++ b) = deltasFor k a ++ deltasFor k b := by
  simp [deltasFor, List.filter_append]

theorem nonnegRun_append (g : Int) (a b : List Int) :
    nonnegRun g (a ++ b) = (nonnegRun g a && nonnegRun (g + a.sum) b) := by
  induction a generalizing g with
  | nil => simp [nonnegRun]
  | cons d ds ih => simp [nonnegRun, ih, Bool.and_assoc, add_assoc]

theorem hello_gauge_nonneg_step (req : Request) (t0 t1 : ℚ) (bodyFail : Option String)
    (st : AppState) (k : Labels)
    (h1 : nonnegRun 0 (deltasFor k st.gaugeEvents) = true)
    (h2 : 0 ≤ (deltasFor k st.gaugeEvents).sum) :
    nonnegRun 0 (deltasFor k (hello req t0 t1 bodyFail st).2.gaugeEvents) = true ∧
      0 ≤ (deltasFor k (hello req t0 t1 bodyFail st).2.gaugeEvents).sum := by
  rw [hello_gaugeEvents, deltasFor_append]
  by_cases hk : (⟨req.method, "/"⟩ : Labels) = k
  · have htail : deltasFor k [((⟨req.method, "/"⟩ : Labels), 1), (⟨req.method, "/"⟩, -1)]
        = [1, -1] := by
      simp [deltasFor, hk]
    rw [htail]
    constructor
    · rw [nonnegRun_append, h1]
      simp only [Bool.true_and, nonnegRun, Bool.and_true, Bool.and_eq_true,
        decide_eq_true_eq]
      omega
    · rw [List.sum_append]
      simp
      omega
  · have htail : deltasFor k [((⟨req.method, "/"⟩ : Labels), 1), (⟨req.method, "/"⟩, -1)]
        = [] := by
      simp [deltasFor, hk]
    rw [htail, List.append_nil]
    exact ⟨h1, h2⟩

theorem runHello_gauge_nonneg (invs : List Invocation) (st : AppState) (k : Labels)
    (h1 : nonnegRun 0 (deltasFor k st.gaugeEvents) = true)
    (h2 : 0 ≤ (deltasFor k st.gaugeEvents).sum) :
    nonnegRun 0 (deltasFor k (runHello invs st).gaugeEvents) = true ∧
      0 ≤ (deltasFor k (runHello invs st).gaugeEvents).sum := by
  induction invs generalizing st with
  | nil => exact ⟨by simpa [runHello] using h1, by simpa [runHello] using h2⟩
  | cons i rest ih =>
    obtain ⟨g1, g2⟩ := hello_gauge_nonneg_step i.req i.t0 i.t1 i.bodyFail st k h1 h2
    simpa [runHello] using ih _ g1 g2

/-! ### Claim theorems -/

/-- C1: on every invocation of the `hello` handler, whether the wrapped work
inside the `try` block completes normally or raises, on exit the handler
performs exactly one decrement of the in-flight gauge (matching its single
entry increment, so the gauge is net unchanged across the call and the event
trace gains exactly one `+1` followed by one `-1`), exactly one increment of
the request counter, and exactly one latency observation of the elapsed
duration, all on the `(method, "/")` series captured at entry; and the
returned state already carries these updates when the caller observes the
propagated failure. -/
theorem hello_instruments_every_exit (req : Request) (t0 t1 : ℚ)
    (bodyFail : Option String) (st : AppState) (h : t0 ≤ t1) :
    lookupAssoc (hello req t0 t1 bodyFail st).2.inProgress ⟨req.method, "/"⟩ 0
        = lookupAssoc st.inProgress ⟨req.method, "/"⟩ 0 ∧
    (hello req t0 t1 bodyFail st).2.gaugeEvents
        = st.gaugeEvents ++ [(⟨req.method, "/"⟩, 1), (⟨req.method, "/"⟩, -1)] ∧
    lookupAssoc (hello req t0 t1 bodyFail st).2.requestCount ⟨req.method, "/"⟩ 0
        = lookupAssoc st.requestCount ⟨req.method, "/"⟩ 0 + 1 ∧
    lookupAssoc (hello req t0 t1 bodyFail st).2.latencyObs ⟨req.method, "/"⟩ []
        = lookupAssoc st.latencyObs ⟨req.method, "/"⟩ [] ++ [t1 - t0] ∧
    (∀ e, bodyFail = some e →
      (hello req t0 t1 bodyFail st).1 = .error (.bodyFailure e)) ∧
    (bodyFail = none → (hello req t0 t1 bodyFail st).1 = .ok greeting) := by
  refine ⟨hello_inProgress req t0 t1 bodyFail st,
    hello_gaugeEvents req t0 t1 bodyFail st,
    hello_requestCount req t0 t1 bodyFail st,
    hello_latencyObs req t0 t1 bodyFail st h, ?_, ?_⟩
  · intro e he
    rw [hello_result req t0 t1 bodyFail st h, he]
  · intro he
    rw [hello_result req t0 t1 bodyFail st h, he]

/-- Witness for C1 at a concrete failing invocation. -/
theorem hello_instruments_every_exit_witness :
    (0 : ℚ) ≤ 1 ∧
    lookupAssoc
        (hello { method := "GET", xRequestId := some "abc" } 0 1 (some "boom")
          initState).2.requestCount ⟨"GET", "/"⟩ 0
      = lookupAssoc initState.requestCount ⟨"GET", "/"⟩ 0 + 1 :=
  ⟨by norm_num,
   (hello_instruments_every_exit { method := "GET", xRequestId := some "abc" } 0 1
      (some "boom") initState (by norm_num)).2.2.1⟩

/-- C2: for every sequence of N requests to `/` (method GET) that all run to
completion, the in-flight gauge of the `(GET, /)` series returns to exactly
its pre-test value and the `http_requests_total` counter of that series
increases by exactly N. -/
theorem inflight_restored_counter_plus_n (invs : List Invocation) (st : AppState)
    (h : ∀ i ∈ invs, i.req.method = "GET") :
    lookupAssoc (runHello invs st).inProgress ⟨"GET", "/"⟩ 0
        = lookupAssoc st.inProgress ⟨"GET", "/"⟩ 0 ∧
    lookupAssoc (runHello invs st).requestCount ⟨"GET", "/"⟩ 0
        = lookupAssoc st.requestCount ⟨"GET", "/"⟩ 0 + invs.length := by
  induction invs generalizing st with
  | nil => simp [runHello]
  | cons i rest ih =>
    have hGET : i.req.method = "GET" := h i (List.mem_cons_self i rest)
    obtain ⟨ih1, ih2⟩ := ih (hello i.req i.t0 i.t1 i.bodyFail st).2
        (fun j hj => h j (List.mem_cons_of_mem _ hj))
    have hg := hello_inProgress i.req i.t0 i.t1 i.bodyFail st
    have hc := hello_requestCount i.req i.t0 i.t1 i.bodyFail st
    rw [hGET] at hg hc
    refine ⟨?_, ?_⟩
    · simp only [runHello]
      rw [ih1, hg]
    · simp only [runHello, List.length_cons]
      rw [ih2, hc]
      omega

/-- Witness for C2 with two concrete completed GET requests. -/
theorem inflight_restored_counter_plus_n_witness :
    lookupAssoc
        (runHello
          [{ req := { method := "GET", xRequestId := none }, t0 := 0, t1 := 1,
             bodyFail := none },
           { req := { method := "GET", xRequestId := none }, t0 := 2, t1 := 3,
             bodyFail := some "boom" }] initState).inProgress ⟨"GET", "/"⟩ 0
      = lookupAssoc initState.inProgress ⟨"GET", "/"⟩ 0 ∧
    lookupAssoc
        (runHello
          [{ req := { method := "GET", xRequestId := none }, t0 := 0, t1 := 1,
             bodyFail := none },
           { req := { method := "GET", xRequestId := none }, t0 := 2, t1 := 3,
             bodyFail := some "boom" }] initState).requestCount ⟨"GET", "/"⟩ 0
      = lookupAssoc initState.requestCount ⟨"GET", "/"⟩ 0 + 2 :=
  inflight_restored_counter_plus_n _ initState (by
    intro i hi
    rcases List.mem_cons.mp hi with rfl | hi'
    · rfl
    · rcases List.mem_cons.mp hi' with rfl | hi''
      · rfl
      · cases hi'')

/-- C3: `GET /metrics` returns status 200, content-type text/plain, and a body
that is the registry snapshot rendered line by line in the exposition format;
after at least one prior `GET /` call the snapshot contains the series line
`http_requests_total{method="GET",endpoint="/"}` with a value of at least 1. -/
theorem metrics_endpoint_exposition (invs : List Invocation)
    (h : ∃ i ∈ invs, i.req.method = "GET") :
    (metricsRoute (runHello invs initState)).status = 200 ∧
    (metricsRoute (runHello invs initState)).mimetype = "text/plain" ∧
    (metricsRoute (runHello invs initState)).body
        = String.intercalate "\n" (generate_latest (runHello invs initState)) ∧
    ∃ v : Nat, 1 ≤ v ∧
      ("http_requests_total" ++ renderLabels ⟨"GET", "/"⟩ ++ " " ++ toString v)
          ∈ generate_latest (runHello invs initState) := by
  refine ⟨rfl, rfl, rfl, ?_⟩
  have hv : 1 ≤ lookupAssoc (runHello invs initState).requestCount ⟨"GET", "/"⟩ 0 :=
    runHello_count_pos invs initState h
  refine ⟨lookupAssoc (runHello invs initState).requestCount ⟨"GET", "/"⟩ 0, hv, ?_⟩
  have hmem : ((⟨"GET", "/"⟩ : Labels),
      lookupAssoc (runHello invs initState).requestCount ⟨"GET", "/"⟩ 0)
        ∈ (runHello invs initState).requestCount :=
    mem_of_lookupAssoc_ne _ _ _ (by omega)
  have hline := List.mem_map_of_mem
      (fun p : Labels × Nat =>
        "http_requests_total" ++ renderLabels p.1 ++ " " ++ toString p.2) hmem
  unfold generate_latest
  refine List.mem_append.mpr (Or.inl ?_)
  refine List.mem_append.mpr (Or.inl ?_)
  refine List.mem_append.mpr (Or.inl ?_)
  refine List.mem_append.mpr (Or.inl ?_)
  refine List.mem_append.mpr (Or.inr ?_)
  simpa using hline

/-- Witness for C3 after one concrete GET request. -/
theorem metrics_endpoint_exposition_witness :
    (metricsRoute
        (runHello
          [{ req := { method := "GET", xRequestId := none }, t0 := 0, t1 := 1,
             bodyFail := none }] initState)).status = 200 ∧
    (metricsRoute
        (runHello
          [{ req := { method := "GET", xRequestId := none }, t0 := 0, t1 := 1,
             bodyFail := none }] initState)).mimetype = "text/plain" :=
  ⟨(metrics_endpoint_exposition _ ⟨_, List.mem_singleton_self _, rfl⟩).1,
   (metrics_endpoint_exposition _ ⟨_, List.mem_singleton_self _, rfl⟩).2.1⟩

/-- C4: every `GET /` request (wrapped work succeeding, clock monotone)
returns HTTP status 200 with body equal to the one fixed greeting string and
content-type text/plain. -/
theorem hello_route_ok_response (req : Request) (t0 t1 : ℚ) (st : AppState)
    (h : t0 ≤ t1) :
    (helloRoute req t0 t1 none st).1
      = { status := 200, body := greeting, mimetype := "text/plain" } := by
  have hr : (hello req t0 t1 none st).1 = .ok greeting := by
    rw [hello_result req t0 t1 none st h]
  unfold helloRoute
  rcases hh : hello req t0 t1 none st with ⟨res, st'⟩
  rw [hh] at hr
  simp only at hr
  subst hr
  rfl

/-- Witness for C4 at a concrete request. -/
theorem hello_route_ok_response_witness :
    (0 : ℚ) ≤ 1 ∧
    (helloRoute { method := "GET", xRequestId := none } 0 1 none initState).1
      = { status := 200, body := greeting, mimetype := "text/plain" } :=
  ⟨by norm_num,
   hello_route_ok_response { method := "GET", xRequestId := none } 0 1 initState
     (by norm_num)⟩

/-- C5: every request to `/` appends exactly one log event whose request-id
field is the `X-Request-ID` header value verbatim when the header is present,
and the sentinel `"N/A"` when it is absent. -/
theorem log_request_id_verbatim_or_sentinel (req : Request) (t0 t1 : ℚ)
    (bodyFail : Option String) (st : AppState) :
    (hello req t0 t1 bodyFail st).2.logEvents = st.logEvents ++ [helloLogEvent req] ∧
    (helloLogEvent req).request_id
        = (match req.xRequestId with
           | some s => s
           | none => "N/A") := by
  refine ⟨hello_logEvents req t0 t1 bodyFail st, ?_⟩
  cases hx : req.xRequestId <;> simp [helloLogEvent, hx]

/-- C6: a negative value passed to the latency histogram's observe operation
fails with `InvalidObservationError` instead of recording the observation. -/
theorem observe_negative_rejected (obs : List ℚ) (v : ℚ) (h : v < 0) :
    observe obs v = .error .invalidObservationError := by
  simp [observe, h]

/-- Witness for C6 at the concrete observation -1. -/
theorem observe_negative_rejected_witness :
    ((-1 : ℚ) < 0) ∧ observe [] (-1) = .error .invalidObservationError :=
  ⟨by norm_num, observe_negative_rejected [] (-1) (by norm_num)⟩

/-- C7: after N completed requests to `/` (method GET, monotone clock), the
latency histogram series `(GET, /)` holds its pre-test observations plus
exactly N new ones, and every newly observed value is non-negative. -/
theorem histogram_counts_all_nonneg (invs : List Invocation) (st : AppState)
    (hM : ∀ i ∈ invs, i.req.method = "GET") (hT : ∀ i ∈ invs, i.t0 ≤ i.t1) :
    ∃ newObs : List ℚ,
      lookupAssoc (runHello invs st).latencyObs ⟨"GET", "/"⟩ []
          = lookupAssoc st.latencyObs ⟨"GET", "/"⟩ [] ++ newObs ∧
      newObs.length = invs.length ∧
      ∀ v ∈ newObs, 0 ≤ v := by
  induction invs generalizing st with
  | nil => exact ⟨[], by simp [runHello], by simp, by simp⟩
  | cons i rest ih =>
    have hGET : i.req.method = "GET" := hM i (List.mem_cons_self i rest)
    have hti : i.t0 ≤ i.t1 := hT i (List.mem_cons_self i rest)
    obtain ⟨new', h1, h2, h3⟩ := ih (hello i.req i.t0 i.t1 i.bodyFail st).2
        (fun j hj => hM j (List.mem_cons_of_mem _ hj))
        (fun j hj => hT j (List.mem_cons_of_mem _ hj))
    have hstep := hello_latencyObs i.req i.t0 i.t1 i.bodyFail st hti
    rw [hGET] at hstep
    refine ⟨(i.t1 - i.t0) :: new', ?_, ?_, ?_⟩
    · simp only [runHello]
      rw [h1, hstep]
      simp
    · simp [h2]
    · intro v hv
      rcases List.mem_cons.mp hv with rfl | hv'
      · exact sub_nonneg.mpr hti
      · exact h3 v hv'

/-- Witness for C7 after one concrete completed GET request. -/
theorem histogram_counts_all_nonneg_witness :
    (lookupAssoc
        (runHello
          [{ req := { method := "GET", xRequestId := none }, t0 := 0, t1 := 1,
             bodyFail := none }] initState).latencyObs ⟨"GET", "/"⟩ []).length = 1 := by
  obtain ⟨newObs, h1, h2, _⟩ := histogram_counts_all_nonneg
      [{ req := { method := "GET", xRequestId := none }, t0 := 0, t1 := 1,
         bodyFail := none }] initState
      (by intro i hi; rcases List.mem_cons.mp hi with rfl | hi'
          · rfl
          · cases hi')
      (by intro i hi; rcases List.mem_cons.mp hi with rfl | hi'
          · norm_num
          · cases hi')
  rw [h1]
  simp [initState, lookupAssoc, h2]

/-- C8: every request to `/` emits exactly one structured log event, appended
to the sink as the serialization of the six-field record (severity, message,
service name, http method, http path, request id), and that serialization is
one self-contained line: it contains no newline character. -/
theorem one_log_line_per_request (req : Request) (t0 t1 : ℚ)
    (bodyFail : Option String) (st : AppState) :
    (hello req t0 t1 bodyFail st).2.logLines
        = st.logLines ++ [dumpsLogEntry (helloLogEvent req)] ∧
    '\n' ∉ (dumpsLogEntry (helloLogEvent req)).data :=
  ⟨hello_logLines req t0 t1 bodyFail st,
   newline_not_mem_dumpsLogEntry (helloLogEvent req)⟩

/-- C9: every invocation of the `hello` handler closes the span it opened
exactly once and queues it for export, on every exit path — whether the
wrapped operation succeeds (`bodyFail = none`) or fails partway
(`bodyFail = some e`): exactly one finished span, carrying the method and
path attributes, is appended. -/
theorem span_closed_every_exit (req : Request) (t0 t1 : ℚ)
    (bodyFail : Option String) (st : AppState) :
    (hello req t0 t1 bodyFail st).2.finishedSpans
        = st.finishedSpans ++
            [{ name := "hello-endpoint-processing",
               attrs := [("http.method", req.method), ("http.path", "/")] }] :=
  hello_finishedSpans req t0 t1 bodyFail st

/-- C10: starting from the initial state (in-flight gauge 0 on every series),
any sequence of complete `hello` invocations keeps every gauge series
non-negative at every intermediate point of its event trace: each invocation
appends its single `+1` strictly before its single matching `-1`. -/
theorem gauge_never_negative (invs : List Invocation) (k : Labels) :
    nonnegRun 0 (deltasFor k (runHello invs initState).gaugeEvents) = true :=
  (runHello_gauge_nonneg invs initState k (by simp [initState, deltasFor, nonnegRun])
    (by simp [initState, deltasFor])).1
